import Mathlib

/-!
Shallow embedding of the ownership-scoped establishment store of the
OSHA Logbook repository (tRPC router `establishmentRouter`, Drizzle schema
`establishments` / `subscriptions`, Clerk-authenticated context, and the
client-side selection-state cache `EstablishmentProvider`).

Conventions of the embedding:
  * JavaScript strings are Lean `String`s; zod length checks count
    characters (`s.data.length`).
  * Machine timestamps are `Nat`; the establishment `averageEmployees`
    column (a JS number validated with `.int().min(0)`) is `Int`.
  * The database is a pure value: a list of establishment rows plus a list
    of subscription rows.  SQL statements become list operations.
  * tRPC error codes become the inductive `ErrorCode`; a zod input-parse
    failure is `BAD_REQUEST`, the auth middleware failure is
    `UNAUTHORIZED`.
-/

namespace OshaLogbook

/-- Establishment row, after src/server/core/db/schema.ts (`establishments`
table): uuid id, Clerk owner id, descriptive columns, audit timestamps. -/
structure Establishment where
  id : String
  userId : String
  name : String
  address : String
  city : String
  state : String
  zipCode : String
  naicsCode : Option String
  industryDescription : Option String
  averageEmployees : Int
  createdAt : Nat
  updatedAt : Nat
deriving Repr, DecidableEq

/-- Subscription row, after src/server/core/db/schema.ts (`subscriptions`
table) with its cascading foreign key to `establishments.id`. -/
structure Subscription where
  id : String
  establishmentId : String
  year : Int
  clerkSubscriptionId : String
  status : String
  createdAt : Nat
  updatedAt : Nat
deriving Repr, DecidableEq

/-- Relational state seen by the router: the two tables of the schema. -/
structure DB where
  establishments : List Establishment
  subscriptions : List Subscription
deriving Repr, DecidableEq

/-- Request context built by `createTRPCContext` (src/server/core/api/trpc.ts):
the Clerk user id, or `none` when unauthenticated. -/
structure Ctx where
  userId : Option String
deriving Repr, DecidableEq

/-- Machine-readable error kinds raised by the router (`TRPCError` codes),
plus `BAD_REQUEST`, the code tRPC uses when zod input parsing fails. -/
inductive ErrorCode where
  | UNAUTHORIZED
  | BAD_REQUEST
  | NOT_FOUND
  | INTERNAL_SERVER_ERROR
deriving Repr, DecidableEq

/-- Character-count length of a JS string (zod `.min` / `.max` / `.length`). -/
def strLen (s : String) : Nat := s.data.length

/-- Consume exactly `n` decimal digits from the front of a character list,
returning the remainder; models a `\d{n}` regex fragment. -/
def takeDigits : Nat → List Char → Option (List Char)
  | 0, rest => some rest
  | _ + 1, [] => none
  | n + 1, c :: rest => if c.isDigit then takeDigits n rest else none

/-- Hexadecimal-digit test, modelling the `[0-9a-fA-F]` character class. -/
def hexDigit (c : Char) : Bool :=
  c.isDigit || ('a' ≤ c && c ≤ 'f') || ('A' ≤ c && c ≤ 'F')

/-- Consume exactly `n` hex digits from the front of a character list. -/
def takeHex : Nat → List Char → Option (List Char)
  | 0, rest => some rest
  | _ + 1, [] => none
  | n + 1, c :: rest => if hexDigit c then takeHex n rest else none

/-- Consume a literal hyphen. -/
def expectDash : List Char → Option (List Char)
  | [] => none
  | c :: rest => if c == '-' then some rest else none

/-- Match of the anchored ZIP regex `\d{5}(-\d{4})?` used by
`establishmentInputSchema.zipCode`: either the whole input is 5 digits,
or 5 digits, a hyphen and 4 digits consume it entirely. -/
def zipRegexMatch (cs : List Char) : Bool :=
  (takeDigits 5 cs == some []) ||
  (((takeDigits 5 cs).bind expectDash).bind (takeDigits 4) == some [])

/-- zipCode validator: `z.string().regex(zip).max(10)`. -/
def zipCodeOk (s : String) : Bool := zipRegexMatch s.data && strLen s ≤ 10

/-- naicsCode validator: the anchored regex `\d{6}` of
`establishmentInputSchema.naicsCode`. -/
def naicsOk (s : String) : Bool := takeDigits 6 s.data == some []

/-- UUID-format test modelling `z.string().uuid()`: an 8-4-4-4-12 grouping
of hex digits separated by hyphens, consuming the whole string. -/
def isUuid (s : String) : Bool :=
  (((((((((takeHex 8 s.data).bind expectDash).bind (takeHex 4)).bind
    expectDash).bind (takeHex 4)).bind expectDash).bind (takeHex 4)).bind
    expectDash).bind (takeHex 12)) == some []

/-- name validator: `z.string().min(1).max(255)`. -/
def nameOk (s : String) : Bool := 1 ≤ strLen s && strLen s ≤ 255

/-- address validator: `z.string().min(1).max(500)`. -/
def addressOk (s : String) : Bool := 1 ≤ strLen s && strLen s ≤ 500

/-- city validator: `z.string().min(1).max(100)`. -/
def cityOk (s : String) : Bool := 1 ≤ strLen s && strLen s ≤ 100

/-- state validator: `z.string().length(2)` (the only check the server
schema performs on the state field before its uppercase transform). -/
def stateOk (s : String) : Bool := strLen s == 2

/-- industryDescription validator: `z.string().max(500)` with no minimum. -/
def descriptionOk (s : String) : Bool := strLen s ≤ 500

/-- averageEmployees validator: `z.number().int().min(0)` (the server
schema has no upper bound). -/
def employeesOk (n : Int) : Bool := 0 ≤ n

/-- Lift a field validator over a zod `.optional()` field: an absent field
passes, a present one is checked. -/
def optOk {α : Type} (check : α → Bool) : Option α → Bool
  | none => true
  | some x => check x

/-- JS `String.prototype.toUpperCase` on the character list (the zod
`.toUpperCase()` transform on the state field). -/
def jsToUpper (s : String) : String := String.mk (s.data.map Char.toUpper)

/-- Payload shape of `establishmentInputSchema` before parsing. -/
structure EstablishmentInput where
  name : String
  address : String
  city : String
  state : String
  zipCode : String
  naicsCode : Option String
  industryDescription : Option String
  averageEmployees : Int
deriving Repr, DecidableEq

/-- Conjunction of all per-field checks of `establishmentInputSchema`. -/
def inputValid (i : EstablishmentInput) : Bool :=
  nameOk i.name && addressOk i.address && cityOk i.city && stateOk i.state &&
  zipCodeOk i.zipCode && optOk naicsOk i.naicsCode &&
  optOk descriptionOk i.industryDescription && employeesOk i.averageEmployees

/-- zod parse of `establishmentInputSchema`: all checks must pass, then the
state field is transformed to uppercase. -/
def parseInput (i : EstablishmentInput) : Option EstablishmentInput :=
  if inputValid i then some { i with state := jsToUpper i.state } else none

/-- JS `x || null` applied to an optional string column value in
`create` (`input.naicsCode || null`, `input.industryDescription || null`):
an absent or empty (falsy) value becomes SQL NULL. -/
def orNull : Option String → Option String
  | none => none
  | some s => if s.data.isEmpty then none else some s

/-- Payload shape of `establishmentInputSchema.partial()`: every field
optional; a present field carries a candidate value. -/
structure EstablishmentPatch where
  name : Option String := none
  address : Option String := none
  city : Option String := none
  state : Option String := none
  zipCode : Option String := none
  naicsCode : Option String := none
  industryDescription : Option String := none
  averageEmployees : Option Int := none
deriving Repr, DecidableEq

/-- Per-field checks of the update payload: identical validators, each
applied only when the field is present. -/
def patchValid (p : EstablishmentPatch) : Bool :=
  optOk nameOk p.name && optOk addressOk p.address && optOk cityOk p.city &&
  optOk stateOk p.state && optOk zipCodeOk p.zipCode &&
  optOk naicsOk p.naicsCode && optOk descriptionOk p.industryDescription &&
  optOk employeesOk p.averageEmployees

/-- zod parse of the update payload, uppercasing a present state field. -/
def parsePatch (p : EstablishmentPatch) : Option EstablishmentPatch :=
  if patchValid p then some { p with state := p.state.map jsToUpper } else none

/-- Drizzle `.set({...input.data, updatedAt: new Date()})` applied to one
row: present fields replace the column, absent fields leave it, and the
last-modified timestamp is always refreshed. -/
def applyPatch (e : Establishment) (q : EstablishmentPatch) (now : Nat) :
    Establishment :=
  { e with
    name := q.name.getD e.name,
    address := q.address.getD e.address,
    city := q.city.getD e.city,
    state := q.state.getD e.state,
    zipCode := q.zipCode.getD e.zipCode,
    naicsCode := match q.naicsCode with
      | some s => some s
      | none => e.naicsCode,
    industryDescription := match q.industryDescription with
      | some s => some s
      | none => e.industryDescription,
    averageEmployees := q.averageEmployees.getD e.averageEmployees,
    updatedAt := now }

/-- Comparison used by `orderBy(establishments.createdAt)` (ascending). -/
def createdLe (a b : Establishment) : Prop := a.createdAt ≤ b.createdAt

instance : DecidableRel createdLe := fun a b => Nat.decLe a.createdAt b.createdAt

instance : IsTotal Establishment createdLe :=
  ⟨fun a b => Nat.le_total a.createdAt b.createdAt⟩

instance : IsTrans Establishment createdLe :=
  ⟨fun _ _ _ h h' => Nat.le_trans h h'⟩

/-- SQL `select … where userId = u orderBy createdAt` over the
establishments table: the owner-filtered rows sorted ascending by the
creation timestamp. -/
def selectByOwner (db : DB) (u : String) : List Establishment :=
  List.insertionSort createdLe
    (db.establishments.filter (fun e => e.userId == u))

/-- `establishmentRouter.list`: auth middleware, then the owner-scoped
ordered select.  The pure store never raises the catch-all internal
error. -/
def listOp (db : DB) (ctx : Ctx) : Except ErrorCode (List Establishment) :=
  match ctx.userId with
  | none => .error .UNAUTHORIZED
  | some u => .ok (selectByOwner db u)

/-- SQL `select … where id = rid and userId = u limit 1`, returning the
first matching row when one exists. -/
def findOwned (db : DB) (u rid : String) : Option Establishment :=
  db.establishments.find? (fun e => e.id == rid && e.userId == u)

/-- `existing.length !== 0` of the ownership-check select used by
`update` and `delete`. -/
def existsOwned (db : DB) (u rid : String) : Bool := (findOwned db u rid).isSome

/-- `establishmentRouter.getById`: auth, uuid input check, then the
id-and-owner select; an empty result is `NOT_FOUND`. -/
def getByIdOp (db : DB) (ctx : Ctx) (rid : String) :
    Except ErrorCode Establishment :=
  match ctx.userId with
  | none => .error .UNAUTHORIZED
  | some u =>
    if isUuid rid then
      match findOwned db u rid with
      | some e => .ok e
      | none => .error .NOT_FOUND
    else .error .BAD_REQUEST

/-- `establishmentRouter.create`: auth, input parse, then the insert with
owner set from the context, falsy optional fields coerced to NULL, and
server-set timestamps; the inserted row is returned. -/
def createOp (db : DB) (ctx : Ctx) (i : EstablishmentInput) (newId : String)
    (now : Nat) : Except ErrorCode (DB × Establishment) :=
  match ctx.userId with
  | none => .error .UNAUTHORIZED
  | some u =>
    match parseInput i with
    | none => .error .BAD_REQUEST
    | some v =>
      let row : Establishment :=
        { id := newId
          userId := u
          name := v.name
          address := v.address
          city := v.city
          state := v.state
          zipCode := v.zipCode
          naicsCode := orNull v.naicsCode
          industryDescription := orNull v.industryDescription
          averageEmployees := v.averageEmployees
          createdAt := now
          updatedAt := now }
      .ok ({ db with establishments := db.establishments ++ [row] }, row)

/-- The mutating statement of `update` taken on its own:
`update … set {…data, updatedAt} where id = rid returning`.  Note the
where-clause filters on the id only (the ownership check was a separate
earlier select).  Returns the new table state and the affected rows. -/
def updateWriteStep (db : DB) (rid : String) (q : EstablishmentPatch)
    (now : Nat) : DB × List Establishment :=
  ({ db with establishments := (db.establishments.map
      (fun e => if e.id == rid then applyPatch e q now else e)) },
   (db.establishments.map
      (fun e => if e.id == rid then applyPatch e q now else e)).filter
     (fun e => e.id == rid))

/-- `establishmentRouter.update`: auth, input parse (uuid id plus field
checks), ownership-check select, then the separate mutating statement;
`result[0]` of the returning clause is handed back (possibly absent). -/
def updateOp (db : DB) (ctx : Ctx) (rid : String) (p : EstablishmentPatch)
    (now : Nat) : Except ErrorCode (DB × Option Establishment) :=
  match ctx.userId with
  | none => .error .UNAUTHORIZED
  | some u =>
    if isUuid rid then
      match parsePatch p with
      | none => .error .BAD_REQUEST
      | some q =>
        if existsOwned db u rid then
          .ok ((updateWriteStep db rid q now).1,
            (updateWriteStep db rid q now).2.head?)
        else .error .NOT_FOUND
    else .error .BAD_REQUEST

/-- Effect on the database of `delete … where id = rid` together with the
schema-level `onDelete("cascade")` of `subscriptions_establishment_fk`:
the establishment rows with that id go away and so does every
subscription row referencing that establishment id. -/
def deleteApply (db : DB) (rid : String) : DB :=
  { establishments := db.establishments.filter (fun e => !(e.id == rid)),
    subscriptions :=
      db.subscriptions.filter (fun s => !(s.establishmentId == rid)) }

/-- Success acknowledgment `{ success: true }` returned by `delete`. -/
structure DeleteResult where
  success : Bool
deriving Repr, DecidableEq

/-- `establishmentRouter.delete`: auth, uuid input check, ownership-check
select, then the delete statement (cascading through the FK), returning
`{ success: true }`. -/
def deleteOp (db : DB) (ctx : Ctx) (rid : String) :
    Except ErrorCode (DB × DeleteResult) :=
  match ctx.userId with
  | none => .error .UNAUTHORIZED
  | some u =>
    if isUuid rid then
      if existsOwned db u rid then .ok (deleteApply db rid, ⟨true⟩)
      else .error .NOT_FOUND
    else .error .BAD_REQUEST

/-- Interleaved schedule in which a committed delete of the same row lands
between `update`'s ownership-check select and its separate mutating
statement (the two statements share no transaction).  Built from the same
statement models as `updateOp` and `deleteOp`. -/
def updateRaceDelete (db : DB) (ctx : Ctx) (rid : String)
    (p : EstablishmentPatch) (now : Nat) :
    Except ErrorCode (DB × Option Establishment) :=
  match ctx.userId with
  | none => .error .UNAUTHORIZED
  | some u =>
    if isUuid rid then
      match parsePatch p with
      | none => .error .BAD_REQUEST
      | some q =>
        if existsOwned db u rid then
          .ok ((updateWriteStep (deleteApply db rid) rid q now).1,
            (updateWriteStep (deleteApply db rid) rid q now).2.head?)
        else .error .NOT_FOUND
    else .error .BAD_REQUEST

/-- Client-local persisted storage slots read and written by
`EstablishmentProvider` through `localStorage` under the keys
`osha-selected-establishment` and `osha-selected-year`; `none` models an
absent key. -/
structure ClientStorage where
  establishmentSlot : Option String := none
  yearSlot : Option String := none
deriving Repr, DecidableEq

/-- In-memory selection state of the provider: the selected establishment
id (or null) and the selected year. -/
structure SelectionState where
  establishmentId : Option String
  year : Int
deriving Repr, DecidableEq

/-- JS truthiness of a string: every nonempty string is truthy. -/
def jsTruthy (s : String) : Bool := !s.data.isEmpty

/-- Leading-digit-run numeric value used by `parseInt`: `none` when no
leading digit exists (the NaN case), otherwise the base-10 value of the
maximal leading digit run. -/
def jsParseDigits (cs : List Char) : Option Nat :=
  if (cs.takeWhile Char.isDigit).isEmpty then none
  else some ((cs.takeWhile Char.isDigit).foldl
    (fun acc c => 10 * acc + (c.toNat - 48)) 0)

/-- JS whitespace test for the characters `parseInt` skips at the front. -/
def jsWhitespace (c : Char) : Bool :=
  c == ' ' || c == '\t' || c == '\n' || c == '\r'

/-- Sign-and-digits step of `parseInt` after whitespace skipping: an
optional sign, then the maximal run of decimal digits; `none` is NaN. -/
def jsParseIntCore : List Char → Option Int
  | [] => none
  | c :: rest =>
    if c == '-' then (jsParseDigits rest).map (fun n => -(n : Int))
    else if c == '+' then (jsParseDigits rest).map (fun n => (n : Int))
    else (jsParseDigits (c :: rest)).map (fun n => (n : Int))

/-- Model of `parseInt(s, 10)`: skip leading whitespace, consume an
optional sign, then the maximal run of decimal digits; `none` is NaN. -/
def jsParseInt (s : String) : Option Int :=
  jsParseIntCore (s.data.dropWhile jsWhitespace)

/-- Decimal digit character for a digit value below ten. -/
def natDigitChar (d : Nat) : Char := Char.ofNat (48 + d)

/-- Decimal rendering of a natural number, as produced by JS
`Number.prototype.toString` on a non-negative integer. -/
def natToDecString (n : Nat) : String :=
  if n = 0 then "0"
  else String.mk (((Nat.digits 10 n).reverse).map natDigitChar)

/-- Decimal rendering of an integer (`newYear.toString()` in `setYear`). -/
def intToDecString : Int → String
  | .ofNat n => natToDecString n
  | .negSucc m => String.mk ('-' :: (natToDecString (m + 1)).data)

/-- Hydration effect of `EstablishmentProvider`: starting from the
defaults (no establishment, the current calendar year), a truthy persisted
establishment id is adopted, and a truthy persisted year string is adopted
only when `parseInt` yields a non-NaN value. -/
def hydrate (st : ClientStorage) (currentYear : Int) : SelectionState :=
  let eid := match st.establishmentSlot with
    | some s => if jsTruthy s then some s else none
    | none => none
  let yr := match st.yearSlot with
    | some s =>
      if jsTruthy s then
        match jsParseInt s with
        | some n => n
        | none => currentYear
      else currentYear
    | none => currentYear
  { establishmentId := eid, year := yr }

/-- Storage effect of the provider's `setYear`: the year slot receives the
decimal rendering of the new year. -/
def writeYear (st : ClientStorage) (y : Int) : ClientStorage :=
  { st with yearSlot := some (intToDecString y) }

/-- In-memory effect of `setYear`. -/
def setYearState (st : SelectionState) (y : Int) : SelectionState :=
  { st with year := y }

/-- US_STATE_CODES list of the repository's form-schema module: the fifty
states plus DC. -/
def usStateCodes : List String :=
  ["AL", "AK", "AZ", "AR", "CA", "CO", "CT", "DE", "FL", "GA",
   "HI", "ID", "IL", "IN", "IA", "KS", "KY", "LA", "ME", "MD",
   "MA", "MI", "MN", "MS", "MO", "MT", "NE", "NV", "NH", "NJ",
   "NM", "NY", "NC", "ND", "OH", "OK", "OR", "PA", "RI", "SC",
   "SD", "TN", "TX", "UT", "VT", "VA", "WA", "WV", "WI", "WY", "DC"]

/-- Fixture row owned by `user_victor`. -/
def rowA : Establishment :=
  { id := "123e4567-e89b-12d3-a456-426614174000"
    userId := "user_victor"
    name := "Victor Forge"
    address := "9 Iron Way"
    city := "Gary"
    state := "IN"
    zipCode := "46402"
    naicsCode := some "332710"
    industryDescription := none
    averageEmployees := 40
    createdAt := 100
    updatedAt := 100 }

/-- Fixture row owned by `user_alice`, created before `rowC`. -/
def rowB : Establishment :=
  { id := "11111111-2222-4333-8444-555555555555"
    userId := "user_alice"
    name := "Alice Plant"
    address := "1 Main St"
    city := "Springfield"
    state := "CA"
    zipCode := "90001"
    naicsCode := none
    industryDescription := some "Machine shop"
    averageEmployees := 12
    createdAt := 50
    updatedAt := 60 }

/-- Fixture row owned by `user_alice`, created after `rowB`. -/
def rowC : Establishment :=
  { id := "99999999-8888-4777-8666-555555555544"
    userId := "user_alice"
    name := "Alice Annex"
    address := "2 Side St"
    city := "Springfield"
    state := "CA"
    zipCode := "90001-1234"
    naicsCode := none
    industryDescription := none
    averageEmployees := 3
    createdAt := 200
    updatedAt := 200 }

/-- Fixture subscription row referencing `rowA`. -/
def subA : Subscription :=
  { id := "aaaaaaaa-bbbb-4ccc-8ddd-eeeeeeeeeeee"
    establishmentId := "123e4567-e89b-12d3-a456-426614174000"
    year := 2025
    clerkSubscriptionId := "sub_123"
    status := "active"
    createdAt := 101
    updatedAt := 101 }

/-- Fixture database holding the three rows and one subscription. -/
def dbSample : DB :=
  { establishments := [rowA, rowB, rowC], subscriptions := [subA] }

/-- Fixture create payload with a lowercase state code. -/
def caInput : EstablishmentInput :=
  { name := "Acme Plant"
    address := "1 Main St"
    city := "Springfield"
    state := "ca"
    zipCode := "90001"
    naicsCode := none
    industryDescription := none
    averageEmployees := 10 }

/-- Fixture create payload whose state code is not a recognized U.S.
state or district code. -/
def zxInput : EstablishmentInput :=
  { name := "Acme Plant"
    address := "1 Main St"
    city := "Springfield"
    state := "ZX"
    zipCode := "90001"
    naicsCode := none
    industryDescription := none
    averageEmployees := 10 }

/-- Fixture create payload carrying an explicitly empty industry
description. -/
def emptyDescInput : EstablishmentInput :=
  { name := "Acme Plant"
    address := "1 Main St"
    city := "Springfield"
    state := "CA"
    zipCode := "90001"
    naicsCode := none
    industryDescription := some ""
    averageEmployees := 10 }

/-- Fixture update payload touching only the average-headcount field. -/
def empPatch : EstablishmentPatch := { averageEmployees := some 25 }

/-!  Theorems.  -/

/-- C1: for every authenticated caller U, list(U) returns exactly the
establishments whose owner reference equals U — every establishment
created by U is included and every establishment owned by any other user
is excluded — ordered by creation timestamp ascending; for a valid caller
it never fails, returning the empty sequence when U owns none. -/
theorem list_owner_scoped_sorted (db : DB) (u : String) :
    ∃ l, listOp db ⟨some u⟩ = .ok l ∧
      (∀ e, e ∈ l ↔ (e ∈ db.establishments ∧ e.userId = u)) ∧
      l.Sorted createdLe ∧
      ((∀ e ∈ db.establishments, e.userId ≠ u) → l = []) := by
  refine ⟨selectByOwner db u, rfl, ?_,
    List.sorted_insertionSort createdLe _, ?_⟩
  · intro e
    unfold selectByOwner
    rw [List.mem_insertionSort, List.mem_filter]
    simp [beq_iff_eq]
  · intro h
    unfold selectByOwner
    have hf : db.establishments.filter (fun e => e.userId == u) = [] := by
      rw [List.filter_eq_nil_iff]
      intro a ha
      simp only [beq_iff_eq]
      exact h a ha
    rw [hf]
    rfl

/-- Witness for C1 on the fixture database and caller `user_alice`. -/
theorem list_owner_scoped_sorted_witness :
    ∃ l, listOp dbSample ⟨some "user_alice"⟩ = .ok l ∧
      (∀ e, e ∈ l ↔ (e ∈ dbSample.establishments ∧ e.userId = "user_alice")) ∧
      l.Sorted createdLe ∧
      ((∀ e ∈ dbSample.establishments, e.userId ≠ "user_alice") → l = []) :=
  list_owner_scoped_sorted dbSample "user_alice"

/-- C2: for every caller U and UUID-formatted id, getById returns the
not-found error kind both when no row with that id exists and when the
row exists but is owned by some other user, so the two runs are
indistinguishable and row existence cannot be observed across tenants. -/
theorem getById_cross_tenant_indistinguishable (db : DB) (u rid : String)
    (huuid : isUuid rid = true)
    (hno : ∀ e ∈ db.establishments, e.id = rid → e.userId ≠ u) :
    getByIdOp db ⟨some u⟩ rid = .error .NOT_FOUND := by
  have hfind : findOwned db u rid = none := by
    unfold findOwned
    rw [List.find?_eq_none]
    intro e he
    simp only [Bool.and_eq_true, beq_iff_eq, not_and]
    exact fun h1 h2 => hno e he h1 h2
  simp [getByIdOp, huuid, hfind]

/-- Witness for C2: on the fixture database, the caller `user_mallory`
receives the same not-found error for `rowA`'s id (owned by
`user_victor`) as for a random nonexistent UUID. -/
theorem getById_cross_tenant_witness :
    getByIdOp dbSample ⟨some "user_mallory"⟩
      "123e4567-e89b-12d3-a456-426614174000" = .error .NOT_FOUND ∧
    getByIdOp dbSample ⟨some "user_mallory"⟩
      "00000000-0000-4000-8000-0000000000ab" = .error .NOT_FOUND :=
  ⟨getById_cross_tenant_indistinguishable dbSample "user_mallory"
      "123e4567-e89b-12d3-a456-426614174000" (by decide) (by decide),
   getById_cross_tenant_indistinguishable dbSample "user_mallory"
      "00000000-0000-4000-8000-0000000000ab" (by decide) (by decide)⟩

/-- C9: for every caller and every id string not in UUID format, getById,
update and delete fail with the input-validation error for every database
state (so no ownership check or storage access can influence the result),
and the not-found error kind is unreachable for such ids under any
context. -/
theorem non_uuid_rejected_before_storage (db : DB) (u rid : String)
    (p : EstablishmentPatch) (now : Nat)
    (h : isUuid rid = false) :
    getByIdOp db ⟨some u⟩ rid = .error .BAD_REQUEST ∧
    updateOp db ⟨some u⟩ rid p now = .error .BAD_REQUEST ∧
    deleteOp db ⟨some u⟩ rid = .error .BAD_REQUEST ∧
    (∀ (db2 : DB) (ctx : Ctx), getByIdOp db2 ctx rid ≠ .error .NOT_FOUND) ∧
    (∀ (db2 : DB) (ctx : Ctx) (p2 : EstablishmentPatch) (now2 : Nat),
      updateOp db2 ctx rid p2 now2 ≠ .error .NOT_FOUND) ∧
    (∀ (db2 : DB) (ctx : Ctx), deleteOp db2 ctx rid ≠ .error .NOT_FOUND) := by
  refine ⟨by simp [getByIdOp, h], by simp [updateOp, h],
    by simp [deleteOp, h], ?_, ?_, ?_⟩
  · intro db2 ctx
    obtain ⟨uid⟩ := ctx
    cases uid <;> simp [getByIdOp, h]
  · intro db2 ctx p2 now2
    obtain ⟨uid⟩ := ctx
    cases uid <;> simp [updateOp, h]
  · intro db2 ctx
    obtain ⟨uid⟩ := ctx
    cases uid <;> simp [deleteOp, h]

/-- Witness for C9 at the concrete malformed id "not-a-uuid". -/
theorem non_uuid_rejected_witness :
    getByIdOp dbSample ⟨some "user_alice"⟩ "not-a-uuid" =
      .error .BAD_REQUEST ∧
    updateOp dbSample ⟨some "user_alice"⟩ "not-a-uuid" empPatch 300 =
      .error .BAD_REQUEST ∧
    deleteOp dbSample ⟨some "user_alice"⟩ "not-a-uuid" =
      .error .BAD_REQUEST :=
  have h := non_uuid_rejected_before_storage dbSample "user_alice"
    "not-a-uuid" empPatch 300 (by decide)
  ⟨h.1, h.2.1, h.2.2.1⟩

/-- C10: a create payload whose optional industry description is present
but empty passes validation (the field has no minimum length) and the
stored value is null, because create coerces falsy optional values to
null. -/
theorem create_empty_description_null (db : DB) (u : String)
    (i : EstablishmentInput) (newId : String) (now : Nat)
    (hname : nameOk i.name = true) (haddr : addressOk i.address = true)
    (hcity : cityOk i.city = true) (hstate : stateOk i.state = true)
    (hzip : zipCodeOk i.zipCode = true)
    (hnaics : optOk naicsOk i.naicsCode = true)
    (hemp : employeesOk i.averageEmployees = true)
    (hdesc : i.industryDescription = some "") :
    inputValid i = true ∧
    ∃ db2 row, createOp db ⟨some u⟩ i newId now = .ok (db2, row) ∧
      row.industryDescription = none ∧
      db2.establishments = db.establishments ++ [row] := by
  have hv : inputValid i = true := by
    unfold inputValid
    rw [hname, haddr, hcity, hstate, hzip, hnaics, hemp, hdesc]
    simp [optOk, descriptionOk, strLen]
  refine ⟨hv, ?_⟩
  simp only [createOp, parseInput, hv, if_true]
  exact ⟨_, _, rfl, by simp [orNull, hdesc], rfl⟩

/-- Witness for C10 on the fixture payload with an empty description. -/
theorem create_empty_description_null_witness :
    inputValid emptyDescInput = true ∧
    ∃ db2 row, createOp dbSample ⟨some "user_alice"⟩ emptyDescInput
        "22222222-3333-4444-8555-666666666666" 400 = .ok (db2, row) ∧
      row.industryDescription = none ∧
      db2.establishments = dbSample.establishments ++ [row] :=
  create_empty_description_null dbSample "user_alice" emptyDescInput
    "22222222-3333-4444-8555-666666666666" 400
    (by decide) (by decide) (by decide) (by decide)
    (by decide) (by decide) (by decide) (by decide)

/-- C3 counterexample: the claim that any 2-character region code outside
the 51 recognized U.S. state/district codes fails validation is false.
The concrete payload with region code "ZX" — two characters, not one of
the 51 codes — passes the server input schema, and create persists the
row with state "ZX". -/
theorem state_enum_not_enforced_cex :
    inputValid zxInput = true ∧
    zxInput.state = "ZX" ∧
    strLen zxInput.state = 2 ∧
    usStateCodes.contains "ZX" = false ∧
    ∃ db2 row, createOp { establishments := [], subscriptions := [] }
        ⟨some "user_alice"⟩ zxInput
        "22222222-3333-4444-8555-666666666677" 500 = .ok (db2, row) ∧
      row.state = "ZX" := by
  refine ⟨by decide, rfl, by decide, by decide, ⟨_, _, rfl, by decide⟩⟩

/-- C3 amended: when every field other than the region code is valid, the
region code is accepted exactly when it is 2 characters long — no
membership check against the 51 state/district codes is performed — and
an accepted code is normalized to uppercase by the schema's transform. -/
theorem state_two_chars_uppercased (i : EstablishmentInput)
    (hname : nameOk i.name = true) (haddr : addressOk i.address = true)
    (hcity : cityOk i.city = true) (hzip : zipCodeOk i.zipCode = true)
    (hnaics : optOk naicsOk i.naicsCode = true)
    (hdesc : optOk descriptionOk i.industryDescription = true)
    (hemp : employeesOk i.averageEmployees = true) :
    ((parseInput i).isSome = true ↔ strLen i.state = 2) ∧
    (∀ v, parseInput i = some v → v.state = jsToUpper i.state) := by
  have hval : inputValid i = (strLen i.state == 2) := by
    unfold inputValid
    rw [hname, haddr, hcity, hzip, hnaics, hdesc, hemp]
    simp [stateOk]
  constructor
  · unfold parseInput
    rw [hval]
    by_cases h2 : strLen i.state = 2 <;> simp [h2]
  · intro v hv
    unfold parseInput at hv
    rw [hval] at hv
    by_cases h2 : strLen i.state = 2
    · simp only [h2, beq_self_eq_true, if_true, Option.some.injEq] at hv
      subst hv
      rfl
    · simp [h2] at hv

/-- Witness for the amended C3: the lowercase code "ca" is accepted and
stored normalized as "CA". -/
theorem state_two_chars_uppercased_witness :
    (parseInput caInput).isSome = true ∧
    (∀ v, parseInput caInput = some v → v.state = "CA") :=
  have h := state_two_chars_uppercased caInput (by decide) (by decide)
    (by decide) (by decide) (by decide) (by decide) (by decide)
  ⟨h.1.mpr (by decide), fun v hv => (h.2 v hv).trans (by decide)⟩

/-- Helper: the digit-run consumer succeeds exactly when the prefix of
the requested width exists and is all digits, returning the remainder. -/
theorem takeDigits_eq (n : Nat) (cs : List Char) :
    takeDigits n cs =
      if n ≤ cs.length ∧ (cs.take n).all Char.isDigit = true
      then some (cs.drop n) else none := by
  induction n generalizing cs with
  | zero => simp [takeDigits]
  | succ n ih =>
    cases cs with
    | nil =>
      rw [if_neg]
      · rfl
      · rintro ⟨h1, -⟩
        simp at h1
    | cons c cs' =>
      show (if c.isDigit = true then takeDigits n cs' else none) = _
      by_cases hc : c.isDigit = true
      · rw [if_pos hc, ih]
        by_cases h2 : n ≤ cs'.length ∧ (cs'.take n).all Char.isDigit = true
        · have hcond : n + 1 ≤ (c :: cs').length ∧
              ((c :: cs').take (n + 1)).all Char.isDigit = true := by
            refine ⟨by simpa using Nat.succ_le_succ h2.1, ?_⟩
            simp only [List.take_succ_cons, List.all_cons, Bool.and_eq_true]
            exact ⟨hc, h2.2⟩
          rw [if_pos h2, if_pos hcond]
          simp
        · have hcond : ¬(n + 1 ≤ (c :: cs').length ∧
              ((c :: cs').take (n + 1)).all Char.isDigit = true) := by
            rintro ⟨h31, h32⟩
            simp only [List.take_succ_cons, List.all_cons,
              Bool.and_eq_true] at h32
            exact h2 ⟨by simpa using Nat.le_of_succ_le_succ h31, h32.2⟩
          rw [if_neg h2, if_neg hcond]
      · have hcond : ¬(n + 1 ≤ (c :: cs').length ∧
            ((c :: cs').take (n + 1)).all Char.isDigit = true) := by
          rintro ⟨-, h2⟩
          simp only [List.take_succ_cons, List.all_cons,
            Bool.and_eq_true] at h2
          exact hc h2.1
        rw [if_neg hc, if_neg hcond]

/-- Helper: declarative reading of the NAICS validator — exactly six
characters, all digits. -/
theorem naicsOk_iff (s : String) :
    naicsOk s = true ↔
      s.data.length = 6 ∧ s.data.all Char.isDigit = true := by
  unfold naicsOk
  rw [takeDigits_eq]
  by_cases h : 6 ≤ s.data.length ∧ (s.data.take 6).all Char.isDigit = true
  · rw [if_pos h, beq_iff_eq, Option.some_inj, List.drop_eq_nil_iff]
    constructor
    · intro hle
      have h6 : s.data.length = 6 := Nat.le_antisymm hle h.1
      refine ⟨h6, ?_⟩
      have ht : s.data.take 6 = s.data := List.take_of_length_le (by omega)
      rw [ht] at h
      exact h.2
    · rintro ⟨h6, -⟩
      omega
  · rw [if_neg h]
    constructor
    · intro hfalse
      exact absurd hfalse (by decide)
    · rintro ⟨h6, hall⟩
      refine absurd ⟨by omega, ?_⟩ h
      rw [List.take_of_length_le (by omega)]
      exact hall

/-- Helper: a split of the input as 5 characters, a hyphen and a tail
determines the take and drop at position 5. -/
theorem split_at_five (s a b : List Char) (ha5 : a.length = 5)
    (happ : s = a ++ '-' :: b) :
    s.take 5 = a ∧ s.drop 5 = '-' :: b :=
  ⟨by rw [happ, List.take_left' ha5], by rw [happ, List.drop_left' ha5]⟩

/-- Helper: declarative reading of the ZIP validator — either five
digits, or five digits, a hyphen and four digits. -/
theorem zipCodeOk_iff (s : String) :
    zipCodeOk s = true ↔
      ((s.data.length = 5 ∧ s.data.all Char.isDigit = true) ∨
       (∃ a b, s.data = a ++ '-' :: b ∧ a.length = 5 ∧
         a.all Char.isDigit = true ∧ b.length = 4 ∧
         b.all Char.isDigit = true)) := by
  unfold zipCodeOk zipRegexMatch strLen
  rw [takeDigits_eq]
  by_cases h5 : 5 ≤ s.data.length ∧ (s.data.take 5).all Char.isDigit = true
  case neg =>
    rw [if_neg h5]
    simp only [Option.none_bind]
    have hA : ((none : Option (List Char)) == some []) = false := rfl
    rw [hA]
    simp only [Bool.or_self, Bool.false_and, Bool.false_eq_true, false_iff]
    rintro (⟨hlen, hall⟩ | ⟨a, b, happ, ha5, haall, hb4, hball⟩)
    · refine h5 ⟨by omega, ?_⟩
      rw [List.take_of_length_le (by omega)]
      exact hall
    · obtain ⟨hta, -⟩ := split_at_five s.data a b ha5 happ
      have hlen : s.data.length = a.length + (b.length + 1) := by
        rw [happ, List.length_append, List.length_cons]
      refine h5 ⟨by omega, ?_⟩
      rw [hta]
      exact haall
  case pos =>
    rw [if_pos h5]
    have hsplit : s.data.take 5 ++ s.data.drop 5 = s.data :=
      List.take_append_drop 5 s.data
    have htlen : (s.data.take 5).length = 5 := by
      rw [List.length_take]
      omega
    cases hd : s.data.drop 5 with
    | nil =>
      have hlen5 : s.data.length = 5 := by
        have := List.drop_eq_nil_iff.mp hd
        omega
      constructor
      · intro _
        refine Or.inl ⟨hlen5, ?_⟩
        have ht : s.data.take 5 = s.data :=
          List.take_of_length_le (by omega)
        rw [ht] at h5
        exact h5.2
      · intro _
        rw [hlen5]
        decide
    | cons c R2 =>
      have hlen : s.data.length = 6 + R2.length := by
        have h2 := hsplit
        rw [hd] at h2
        have h3 := congrArg List.length h2
        rw [List.length_append, List.length_cons, htlen] at h3
        omega
      have hA : (some (c :: R2) == some ([] : List Char)) = false := rfl
      by_cases hc : c = '-'
      · subst hc
        have hbind : ((some ('-' :: R2)).bind expectDash).bind
            (takeDigits 4) = takeDigits 4 R2 := rfl
        rw [hA, hbind, takeDigits_eq]
        by_cases h4 : 4 ≤ R2.length ∧ (R2.take 4).all Char.isDigit = true
        · rw [if_pos h4]
          constructor
          · intro htrue
            have hdrop : R2.drop 4 = [] := by
              rcases (Bool.and_eq_true _ _).mp htrue with ⟨hor, -⟩
              rcases (Bool.or_eq_true _ _).mp hor with hbad | hgood
              · exact absurd hbad (by decide)
              · exact Option.some_inj.mp (beq_iff_eq.mp hgood)
            have hR2len : R2.length = 4 := by
              have := List.drop_eq_nil_iff.mp hdrop
              omega
            refine Or.inr ⟨s.data.take 5, R2, ?_, htlen, h5.2, hR2len, ?_⟩
            · have h2 := hsplit.symm
              rw [hd] at h2
              exact h2
            · have ht : R2.take 4 = R2 := List.take_of_length_le (by omega)
              rw [ht] at h4
              exact h4.2
          · rintro (⟨hlen5, -⟩ | ⟨a, b, happ, ha5, -, hb4, -⟩)
            · omega
            · obtain ⟨-, hdr⟩ := split_at_five s.data a b ha5 happ
              rw [hd] at hdr
              have hbR2 : b = R2 := by
                injection hdr with h1 h2
                exact h2.symm
              have hR2len : R2.length = 4 := by
                rw [← hbR2]
                exact hb4
              have hdrop : R2.drop 4 = [] :=
                List.drop_eq_nil_iff.mpr (by omega)
              rw [hdrop, hlen, hR2len]
              decide
        · rw [if_neg h4]
          have hB : ((none : Option (List Char)) == some []) = false := rfl
          rw [hB]
          simp only [Bool.or_self, Bool.false_and, Bool.false_eq_true, false_iff]
          rintro (⟨hlen5, -⟩ | ⟨a, b, happ, ha5, -, hb4, hball⟩)
          · omega
          · obtain ⟨-, hdr⟩ := split_at_five s.data a b ha5 happ
            rw [hd] at hdr
            have hbR2 : b = R2 := by
              injection hdr with h1 h2
              exact h2.symm
            have hR2len : R2.length = 4 := by
              rw [← hbR2]
              exact hb4
            have hR2all : R2.all Char.isDigit = true := by
              rw [← hbR2]
              exact hball
            refine h4 ⟨by omega, ?_⟩
            rw [List.take_of_length_le (by omega)]
            exact hR2all
      · have hdash : (c == '-') = false := by
          rw [beq_eq_false_iff_ne]
          exact hc
        have hbind : ((some (c :: R2)).bind expectDash).bind
            (takeDigits 4) = none := by
          simp only [Option.some_bind, expectDash, hdash]
          rfl
        have hB : ((none : Option (List Char)) == some []) = false := rfl
        rw [hA, hbind, hB]
        simp only [Bool.or_self, Bool.false_and, Bool.false_eq_true, false_iff]
        rintro (⟨hlen5, -⟩ | ⟨a, b, happ, ha5, -, -, -⟩)
        · have hnil : s.data.drop 5 = [] := List.drop_eq_nil_iff.mpr (by omega)
          rw [hd] at hnil
          exact absurd hnil (by simp)
        · obtain ⟨-, hdr⟩ := split_at_five s.data a b ha5 happ
          rw [hd] at hdr
          have : c = '-' := by
            injection hdr with h1 h2
          exact hc this

/-- C4: a postal code is accepted exactly when it is 5 digits or 5
digits, a hyphen and 4 digits ("9000" fails, "90001" and "90001-1234"
succeed); an industry classification code, when present, is accepted
exactly when it is 6 digits ("12345" fails, "123456" succeeds); and a
create payload omitting the classification code succeeds with null
stored for that column. -/
theorem postal_naics_validation :
    (∀ s : String, zipCodeOk s = true ↔
      ((s.data.length = 5 ∧ s.data.all Char.isDigit = true) ∨
       (∃ a b, s.data = a ++ '-' :: b ∧ a.length = 5 ∧
         a.all Char.isDigit = true ∧ b.length = 4 ∧
         b.all Char.isDigit = true))) ∧
    zipCodeOk "90001" = true ∧ zipCodeOk "90001-1234" = true ∧
    zipCodeOk "9000" = false ∧
    (∀ s : String, naicsOk s = true ↔
      s.data.length = 6 ∧ s.data.all Char.isDigit = true) ∧
    naicsOk "123456" = true ∧ naicsOk "12345" = false ∧
    (∀ (db : DB) (u : String) (i : EstablishmentInput) (nid : String)
      (now : Nat), i.naicsCode = none → inputValid i = true →
      ∃ db2 row, createOp db ⟨some u⟩ i nid now = .ok (db2, row) ∧
        row.naicsCode = none) := by
  refine ⟨zipCodeOk_iff, by decide, by decide, by decide, naicsOk_iff,
    by decide, by decide, ?_⟩
  intro db u i nid now hnone hv
  simp only [createOp, parseInput, hv, if_true]
  exact ⟨_, _, rfl, by simp [orNull, hnone]⟩

/-- Witness for C4: creating from the fixture payload (no NAICS code)
succeeds and stores null for the classification column. -/
theorem postal_naics_validation_witness :
    ∃ db2 row, createOp dbSample ⟨some "user_alice"⟩ caInput
        "33333333-4444-4555-8666-777777777777" 600 = .ok (db2, row) ∧
      row.naicsCode = none :=
  postal_naics_validation.2.2.2.2.2.2.2 dbSample "user_alice" caInput
    "33333333-4444-4555-8666-777777777777" 600 (by decide) (by decide)

/-- Helper: a row owned by the caller with the target id makes the
ownership-check select succeed. -/
theorem existsOwned_of_mem (db : DB) (u rid : String) (e : Establishment)
    (he : e ∈ db.establishments) (heid : e.id = rid) (hown : e.userId = u) :
    existsOwned db u rid = true := by
  unfold existsOwned findOwned
  rw [List.find?_isSome]
  exact ⟨e, he, by simp [heid, hown]⟩

/-- Helper: over a table with pairwise-distinct ids containing a row `e`
with the target id, the update statement's returning clause yields exactly
the patched image of `e`. -/
theorem filter_map_patch_unique (l : List Establishment) (rid : String)
    (q : EstablishmentPatch) (now : Nat) (e : Establishment)
    (huniq : l.Pairwise (fun a b => a.id ≠ b.id))
    (he : e ∈ l) (heid : e.id = rid) :
    (l.map (fun x => if x.id == rid then applyPatch x q now else x)).filter
      (fun x => x.id == rid) = [applyPatch e q now] := by
  induction l with
  | nil => cases he
  | cons a l' ih =>
    rw [List.pairwise_cons] at huniq
    obtain ⟨ha, huniq'⟩ := huniq
    rcases List.mem_cons.mp he with rfl | he'
    · have hg : (e.id == rid) = true := by
        rw [beq_iff_eq]
        exact heid
      have hfa : (if (e.id == rid) = true then applyPatch e q now else e) =
          applyPatch e q now := if_pos hg
      have htail : (l'.map (fun x =>
          if x.id == rid then applyPatch x q now else x)).filter
          (fun x => x.id == rid) = [] := by
        rw [List.filter_eq_nil_iff]
        intro y hy
        obtain ⟨x, hx, hxy⟩ := List.mem_map.mp hy
        have hxid : x.id ≠ rid := by
          intro hxid
          exact (ha x hx) (heid.trans hxid.symm)
        subst hxy
        by_cases hxr : (x.id == rid) = true
        · exact absurd (beq_iff_eq.mp hxr) hxid
        · rw [if_neg hxr]
          exact hxr
      have hg2 : ((applyPatch e q now).id == rid) = true := hg
      rw [List.map_cons, hfa, List.filter_cons, if_pos hg2, htail]
    · have haid : a.id ≠ rid := by
        intro haid
        exact (ha e he') (haid.trans heid.symm)
      have hg : ¬((a.id == rid) = true) := by
        rw [beq_iff_eq]
        exact haid
      have hfa : (if (a.id == rid) = true then applyPatch a q now else a) =
          a := if_neg hg
      have hg2 : (a.id == rid) = false := by
        rw [beq_eq_false_iff_ne]
        exact haid
      rw [List.map_cons, hfa]
      simp only [List.filter_cons, hg2, Bool.false_eq_true, if_false]
      exact ih huniq' he'

/-- C5: for an owned establishment and a valid partial payload, update
succeeds and returns the patched row; the patch applies exactly the
fields present in the payload, leaves every absent descriptive field,
the identifier, the owner reference and the creation timestamp unchanged,
refreshes the last-modified timestamp, and leaves every other row and the
subscriptions table untouched. -/
theorem update_applies_only_present_fields (db : DB) (u rid : String)
    (p q : EstablishmentPatch) (e : Establishment) (now : Nat)
    (huuid : isUuid rid = true)
    (hq : parsePatch p = some q)
    (huniq : db.establishments.Pairwise (fun a b => a.id ≠ b.id))
    (he : e ∈ db.establishments) (heid : e.id = rid) (hown : e.userId = u) :
    ∃ db2, updateOp db ⟨some u⟩ rid p now =
        .ok (db2, some (applyPatch e q now)) ∧
      db2.subscriptions = db.subscriptions ∧
      db2.establishments.length = db.establishments.length ∧
      (∀ x ∈ db.establishments, x.id ≠ rid → x ∈ db2.establishments) ∧
      (∀ y ∈ db2.establishments, y.id ≠ rid → y ∈ db.establishments) ∧
      applyPatch e q now ∈ db2.establishments ∧
      (applyPatch e q now).id = e.id ∧
      (applyPatch e q now).userId = e.userId ∧
      (applyPatch e q now).createdAt = e.createdAt ∧
      (applyPatch e q now).updatedAt = now ∧
      (q.name = none → (applyPatch e q now).name = e.name) ∧
      (q.address = none → (applyPatch e q now).address = e.address) ∧
      (q.city = none → (applyPatch e q now).city = e.city) ∧
      (q.state = none → (applyPatch e q now).state = e.state) ∧
      (q.zipCode = none → (applyPatch e q now).zipCode = e.zipCode) ∧
      (q.naicsCode = none →
        (applyPatch e q now).naicsCode = e.naicsCode) ∧
      (q.industryDescription = none →
        (applyPatch e q now).industryDescription = e.industryDescription) ∧
      (q.averageEmployees = none →
        (applyPatch e q now).averageEmployees = e.averageEmployees) ∧
      (∀ v, q.name = some v → (applyPatch e q now).name = v) ∧
      (∀ v, q.address = some v → (applyPatch e q now).address = v) ∧
      (∀ v, q.city = some v → (applyPatch e q now).city = v) ∧
      (∀ v, q.state = some v → (applyPatch e q now).state = v) ∧
      (∀ v, q.zipCode = some v → (applyPatch e q now).zipCode = v) ∧
      (∀ v, q.naicsCode = some v → (applyPatch e q now).naicsCode = some v) ∧
      (∀ v, q.industryDescription = some v →
        (applyPatch e q now).industryDescription = some v) ∧
      (∀ v, q.averageEmployees = some v →
        (applyPatch e q now).averageEmployees = v) := by
  have hfound : existsOwned db u rid = true :=
    existsOwned_of_mem db u rid e he heid hown
  have hstep2 : (updateWriteStep db rid q now).2 = [applyPatch e q now] :=
    filter_map_patch_unique db.establishments rid q now e huniq he heid
  have hmain : updateOp db ⟨some u⟩ rid p now =
      .ok ((updateWriteStep db rid q now).1,
        (updateWriteStep db rid q now).2.head?) := by
    simp [updateOp, hq, huuid, hfound]
  refine ⟨(updateWriteStep db rid q now).1, ?_, rfl,
    by simp [updateWriteStep], ?_, ?_, ?_, rfl, rfl, rfl, rfl,
    fun h => by simp [applyPatch, h],
    fun h => by simp [applyPatch, h],
    fun h => by simp [applyPatch, h],
    fun h => by simp [applyPatch, h],
    fun h => by simp [applyPatch, h],
    fun h => by simp [applyPatch, h],
    fun h => by simp [applyPatch, h],
    fun h => by simp [applyPatch, h],
    fun v h => by simp [applyPatch, h],
    fun v h => by simp [applyPatch, h],
    fun v h => by simp [applyPatch, h],
    fun v h => by simp [applyPatch, h],
    fun v h => by simp [applyPatch, h],
    fun v h => by simp [applyPatch, h],
    fun v h => by simp [applyPatch, h],
    fun v h => by simp [applyPatch, h]⟩
  · rw [hmain, hstep2]
    rfl
  · intro x hx hxid
    refine List.mem_map.mpr ⟨x, hx, ?_⟩
    rw [if_neg (by rw [beq_iff_eq]; exact hxid)]
  · intro y hy hyid
    obtain ⟨x, hx, hxy⟩ := List.mem_map.mp hy
    by_cases hxr : (x.id == rid) = true
    · exfalso
      rw [if_pos hxr] at hxy
      apply hyid
      rw [← hxy]
      exact beq_iff_eq.mp hxr
    · rw [if_neg hxr] at hxy
      rw [← hxy]
      exact hx
  · refine List.mem_map.mpr ⟨e, he, ?_⟩
    rw [if_pos (by rw [beq_iff_eq]; exact heid)]

/-- Witness for C5: updating `rowB` (owned by `user_alice`) with a
payload containing only `averageEmployees` succeeds and returns exactly
the patched row. -/
theorem update_applies_only_present_fields_witness :
    ∃ db2, updateOp dbSample ⟨some "user_alice"⟩
        "11111111-2222-4333-8444-555555555555" empPatch 999 =
        .ok (db2, some (applyPatch rowB empPatch 999)) :=
  (update_applies_only_present_fields dbSample "user_alice"
      "11111111-2222-4333-8444-555555555555" empPatch empPatch rowB 999
      (by decide) (by decide) (by decide) (by decide) (by decide)
      (by decide)).elim
    (fun db2 hc => ⟨db2, hc.1⟩)

/-- C6: deleting an establishment owned by the caller passes the
ownership check, removes the row, removes (via the cascading foreign
key) every subscription referencing it, leaves all other rows intact,
returns the success acknowledgment, and a subsequent getById for the
same id yields the not-found error. -/
theorem delete_cascades_subscriptions (db : DB) (u rid : String)
    (e : Establishment) (huuid : isUuid rid = true)
    (he : e ∈ db.establishments) (heid : e.id = rid) (hown : e.userId = u) :
    ∃ db2, deleteOp db ⟨some u⟩ rid = .ok (db2, ⟨true⟩) ∧
      (∀ x ∈ db2.establishments, x.id ≠ rid) ∧
      (∀ s ∈ db2.subscriptions, s.establishmentId ≠ rid) ∧
      (∀ x ∈ db.establishments, x.id ≠ rid → x ∈ db2.establishments) ∧
      (∀ s ∈ db.subscriptions, s.establishmentId ≠ rid →
        s ∈ db2.subscriptions) ∧
      getByIdOp db2 ⟨some u⟩ rid = .error .NOT_FOUND := by
  have hfound : existsOwned db u rid = true :=
    existsOwned_of_mem db u rid e he heid hown
  have hgone : ∀ x ∈ (deleteApply db rid).establishments, x.id ≠ rid := by
    intro x hx
    have hx2 := (List.mem_filter.mp hx).2
    simpa using hx2
  refine ⟨deleteApply db rid, ?_, hgone, ?_, ?_, ?_, ?_⟩
  · simp [deleteOp, huuid, hfound]
  · intro s hs
    have hs2 := (List.mem_filter.mp hs).2
    simpa using hs2
  · intro x hx hxid
    refine List.mem_filter.mpr ⟨hx, ?_⟩
    simpa using hxid
  · intro s hs hsid
    refine List.mem_filter.mpr ⟨hs, ?_⟩
    simpa using hsid
  · have hnone : findOwned (deleteApply db rid) u rid = none := by
      unfold findOwned
      rw [List.find?_eq_none]
      intro x hx
      have hxid := hgone x hx
      simp [hxid]
    simp [getByIdOp, huuid, hnone]

/-- Witness for C6: `user_alice` deletes `rowB` from the fixture
database; the row and its (absent) subscriptions are gone and getById
reports not-found. -/
theorem delete_cascades_subscriptions_witness :
    ∃ db2, deleteOp dbSample ⟨some "user_alice"⟩
        "11111111-2222-4333-8444-555555555555" = .ok (db2, ⟨true⟩) ∧
      (∀ x ∈ db2.establishments,
        x.id ≠ "11111111-2222-4333-8444-555555555555") ∧
      (∀ s ∈ db2.subscriptions,
        s.establishmentId ≠ "11111111-2222-4333-8444-555555555555") ∧
      (∀ x ∈ dbSample.establishments,
        x.id ≠ "11111111-2222-4333-8444-555555555555" →
        x ∈ db2.establishments) ∧
      (∀ s ∈ dbSample.subscriptions,
        s.establishmentId ≠ "11111111-2222-4333-8444-555555555555" →
        s ∈ db2.subscriptions) ∧
      getByIdOp db2 ⟨some "user_alice"⟩
        "11111111-2222-4333-8444-555555555555" = .error .NOT_FOUND :=
  delete_cascades_subscriptions dbSample "user_alice"
    "11111111-2222-4333-8444-555555555555" rowB
    (by decide) (by decide) (by decide) (by decide)

/-- C8: when a delete of the target row commits between update's
ownership-check select (which passed) and its separate mutating
statement, the write affects zero rows — the returning clause comes back
empty — yet the interleaved update still answers with a success
acknowledgment (carrying no row), because no existence check follows the
write and no transaction wraps the two statements. -/
theorem update_delete_race_silent_success (db : DB) (u rid : String)
    (p q : EstablishmentPatch) (now : Nat)
    (huuid : isUuid rid = true) (hq : parsePatch p = some q)
    (hown : existsOwned db u rid = true) :
    updateRaceDelete db ⟨some u⟩ rid p now =
      .ok (deleteApply db rid, none) ∧
    (updateWriteStep (deleteApply db rid) rid q now).2 = [] := by
  have hgone : ∀ x ∈ (deleteApply db rid).establishments,
      (x.id == rid) = false := by
    intro x hx
    have hx2 := (List.mem_filter.mp hx).2
    rw [beq_eq_false_iff_ne]
    simpa using hx2
  have hmap : (deleteApply db rid).establishments.map
      (fun x => if x.id == rid then applyPatch x q now else x) =
      (deleteApply db rid).establishments := by
    have hcong : ∀ x ∈ (deleteApply db rid).establishments,
        (if (x.id == rid) = true then applyPatch x q now else x) = id x := by
      intro x hx
      rw [if_neg (by simp [hgone x hx])]
      rfl
    rw [List.map_congr_left hcong, List.map_id]
  have hfil : (updateWriteStep (deleteApply db rid) rid q now).2 = [] := by
    show ((deleteApply db rid).establishments.map
      (fun x => if x.id == rid then applyPatch x q now else x)).filter
        (fun x => x.id == rid) = []
    rw [hmap, List.filter_eq_nil_iff]
    intro x hx
    simp [hgone x hx]
  have hone : (updateWriteStep (deleteApply db rid) rid q now).1 =
      deleteApply db rid := by
    show ({ deleteApply db rid with
      establishments := ((deleteApply db rid).establishments.map
        (fun x => if x.id == rid then applyPatch x q now else x)) } : DB) =
      deleteApply db rid
    rw [hmap]
  have hmain : updateRaceDelete db ⟨some u⟩ rid p now =
      .ok ((updateWriteStep (deleteApply db rid) rid q now).1,
        (updateWriteStep (deleteApply db rid) rid q now).2.head?) := by
    simp [updateRaceDelete, hq, huuid, hown]
  refine ⟨?_, hfil⟩
  rw [hmain, hone, hfil]
  rfl

/-- Witness for C8: on the fixture database, a delete of `rowB` landing
inside `user_alice`'s update of `rowB` yields a success acknowledgment
with an empty returning set. -/
theorem update_delete_race_silent_success_witness :
    updateRaceDelete dbSample ⟨some "user_alice"⟩
        "11111111-2222-4333-8444-555555555555" empPatch 999 =
      .ok (deleteApply dbSample "11111111-2222-4333-8444-555555555555",
        none) ∧
    (updateWriteStep
        (deleteApply dbSample "11111111-2222-4333-8444-555555555555")
        "11111111-2222-4333-8444-555555555555" empPatch 999).2 = [] :=
  update_delete_race_silent_success dbSample "user_alice"
    "11111111-2222-4333-8444-555555555555" empPatch empPatch 999
    (by decide) (by decide) (by decide)

/-- Helper: facts about a decimal digit character below ten — it is a
digit, its numeric value round-trips, and it is neither whitespace nor a
sign character. -/
theorem digitChar_facts (d : Nat) (h : d < 10) :
    (natDigitChar d).isDigit = true ∧ (natDigitChar d).toNat - 48 = d ∧
    jsWhitespace (natDigitChar d) = false ∧
    ((natDigitChar d) == '-') = false ∧
    ((natDigitChar d) == '+') = false := by
  interval_cases d <;> exact ⟨by decide, by decide, by decide, by decide,
    by decide⟩

/-- Helper: folding the digit-accumulation step over the rendered digit
characters of a little-endian digit list recovers the digit sequence's
value with the accumulator scaled past it. -/
theorem foldl_digit_chars : ∀ (L : List Nat) (a : Nat),
    (∀ d ∈ L, d < 10) →
    ((L.reverse.map natDigitChar).foldl
      (fun acc c => 10 * acc + (c.toNat - 48)) a) =
      a * 10 ^ L.length + Nat.ofDigits 10 L := by
  intro L
  induction L with
  | nil =>
    intro a _
    simp [Nat.ofDigits_nil]
  | cons d L' ih =>
    intro a hL
    rw [List.reverse_cons, List.map_append, List.foldl_append]
    rw [ih a (fun x hx => hL x (List.mem_cons_of_mem d hx))]
    have hd := (digitChar_facts d (hL d (List.mem_cons_self d L'))).2.1
    show 10 * (a * 10 ^ L'.length + Nat.ofDigits 10 L') +
        ((natDigitChar d).toNat - 48) = _
    rw [hd, Nat.ofDigits_cons]
    simp only [List.length_cons, Nat.cast_id]
    ring

/-- Helper: the digit-run parser evaluated on rendered digit characters
of a nonempty little-endian digit list yields the digit sequence's
value. -/
theorem jsParseDigits_digit_chars (L : List Nat) (hL : ∀ d ∈ L, d < 10)
    (hne : L ≠ []) :
    jsParseDigits (L.reverse.map natDigitChar) =
      some (Nat.ofDigits 10 L) := by
  unfold jsParseDigits
  have hall : ∀ c ∈ L.reverse.map natDigitChar, Char.isDigit c = true := by
    intro c hc
    obtain ⟨d, hd, rfl⟩ := List.mem_map.mp hc
    exact (digitChar_facts d (hL d (List.mem_reverse.mp hd))).1
  rw [List.takeWhile_eq_self_iff.mpr hall]
  rw [if_neg (by simp [hne])]
  rw [foldl_digit_chars L 0 hL]
  simp

/-- Helper: the decimal rendering of a natural number is the rendering of
a nonempty digit list of values below ten. -/
theorem natToDecString_eq (n : Nat) :
    ∃ M, (∀ d ∈ M, d < 10) ∧ M ≠ [] ∧ Nat.ofDigits 10 M.reverse = n ∧
      (natToDecString n).data = (M.reverse.reverse).map natDigitChar := by
  by_cases h : n = 0
  · subst h
    exact ⟨[0], by decide, by decide, by decide, by decide⟩
  · refine ⟨(Nat.digits 10 n).reverse, ?_, ?_, ?_, ?_⟩
    · intro d hd
      exact Nat.digits_lt_base (by norm_num) (List.mem_reverse.mp hd)
    · simp [Nat.digits_ne_nil_iff_ne_zero.mpr h]
    · rw [List.reverse_reverse]
      exact Nat.ofDigits_digits 10 n
    · rw [List.reverse_reverse]
      unfold natToDecString
      rw [if_neg h]

/-- Helper: parsing the decimal rendering of a natural number yields the
number back. -/
theorem jsParseInt_natToDecString (n : Nat) :
    jsParseInt (natToDecString n) = some (n : Int) := by
  obtain ⟨M, hM, hMne, hMval, hMeq⟩ := natToDecString_eq n
  rw [List.reverse_reverse] at hMeq
  have hMrev : ∀ d ∈ M.reverse, d < 10 := fun d hd =>
    hM d (List.mem_reverse.mp hd)
  have hMrevne : M.reverse ≠ [] := by
    simp [hMne]
  unfold jsParseInt
  rw [hMeq]
  cases hMc : M with
  | nil => exact absurd hMc hMne
  | cons d M' =>
    rw [List.map_cons]
    have hdlt : d < 10 := by
      rw [hMc] at hM
      exact hM d (List.mem_cons_self d M')
    have hfacts := digitChar_facts d hdlt
    rw [List.dropWhile_cons, if_neg (by simp [hfacts.2.2.1])]
    simp only [jsParseIntCore]
    rw [if_neg (by simp [hfacts.2.2.2.1]), if_neg (by simp [hfacts.2.2.2.2])]
    rw [← List.map_cons, ← hMc]
    have hcore : M = M.reverse.reverse := (List.reverse_reverse M).symm
    rw [hcore, jsParseDigits_digit_chars M.reverse hMrev hMrevne, hMval]
    rfl

/-- Helper: parsing the decimal rendering of any integer yields the
integer back (the year round-trip through client-local storage). -/
theorem jsParseInt_intToDecString (y : Int) :
    jsParseInt (intToDecString y) = some y := by
  cases y with
  | ofNat n => exact jsParseInt_natToDecString n
  | negSucc m =>
    unfold jsParseInt
    show jsParseIntCore
      (('-' :: (natToDecString (m + 1)).data).dropWhile jsWhitespace) = _
    rw [List.dropWhile_cons, if_neg (by decide)]
    simp only [jsParseIntCore]
    rw [if_pos (by decide)]
    obtain ⟨M, hMlt, hMne, hMval, hMeq⟩ := natToDecString_eq (m + 1)
    rw [List.reverse_reverse] at hMeq
    have hMrev : ∀ d ∈ M.reverse, d < 10 := fun d hd =>
      hMlt d (List.mem_reverse.mp hd)
    have hMrevne : M.reverse ≠ [] := by
      simp [hMne]
    rw [hMeq]
    have hcore : M = M.reverse.reverse := (List.reverse_reverse M).symm
    rw [hcore, jsParseDigits_digit_chars M.reverse hMrev hMrevne, hMval]
    show some (-((m : Int) + 1)) = some (Int.negSucc m)
    rw [Int.negSucc_eq]

/-- Helper: the decimal rendering of an integer is never empty, so the
persisted year string is always truthy. -/
theorem intToDecString_ne_nil (y : Int) : (intToDecString y).data ≠ [] := by
  cases y with
  | ofNat n =>
    obtain ⟨M, -, hMne, -, hMeq⟩ := natToDecString_eq n
    rw [List.reverse_reverse] at hMeq
    show (natToDecString n).data ≠ []
    rw [hMeq]
    simp [hMne]
  | negSucc m =>
    show ('-' :: (natToDecString (m + 1)).data) ≠ []
    simp

/-- C7: setting the year to any integer and rehydrating from persisted
storage yields that integer again, and a persisted year value that
`parseInt` cannot parse is discarded in favor of the current calendar
year, with no error surfaced (hydration is total). -/
theorem selection_year_roundtrip (st : ClientStorage) (y cy : Int) :
    (hydrate (writeYear st y) cy).year = y ∧
    (∀ s, jsParseInt s = none →
      (hydrate { st with yearSlot := some s } cy).year = cy) := by
  constructor
  · have htru : jsTruthy (intToDecString y) = true := by
      unfold jsTruthy
      simp [intToDecString_ne_nil y]
    have hp := jsParseInt_intToDecString y
    simp [hydrate, writeYear, htru, hp]
  · intro s hs
    cases hjs : jsTruthy s
    · simp [hydrate, hjs]
    · simp [hydrate, hjs, hs]

/-- Witness for C7: year 2026 round-trips through storage, and the
corrupted persisted value "oops" falls back to the current year 2025. -/
theorem selection_year_roundtrip_witness :
    (hydrate (writeYear { establishmentSlot := none, yearSlot := none }
      2026) 2025).year = 2026 ∧
    (hydrate { establishmentSlot := none, yearSlot := some "oops" }
      2025).year = 2025 :=
  have h := selection_year_roundtrip
    { establishmentSlot := none, yearSlot := none } 2026 2025
  ⟨h.1, h.2 "oops" (by decide)⟩

end OshaLogbook
